import Mathlib

/-
Shallow embedding of the rust-tcp-server sources (src/main.rs, src/server.rs,
src/connection.rs): a mio-based single-threaded echo server.  Socket and
event-loop effects are externalised as oracle inputs (read results, write
results, multiplexer registration results); everything else follows the Rust
code line by line.  Bytes are `Nat` (values < 256 in practice; nothing below
depends on the bound), buffers are `List Nat`.
-/

/-- Event/interest flags mirroring mio's `EventSet` as used by the sources:
`readable`, `writable`, `hup` and `error`. -/
structure EventSet where
  readable : Bool
  writable : Bool
  hup : Bool
  error : Bool
deriving DecidableEq

/-- mio's `EventSet::hup()`: only the hang-up flag set. -/
def EventSet.hupOnly : EventSet := ⟨false, false, true, false⟩

/-- `interest.insert(EventSet::writable())`. -/
def EventSet.insertWritable (e : EventSet) : EventSet := { e with writable := true }

/-- `interest.remove(EventSet::writable())`. -/
def EventSet.removeWritable (e : EventSet) : EventSet := { e with writable := false }

/-- `interest.insert(EventSet::readable())`. -/
def EventSet.insertReadable (e : EventSet) : EventSet := { e with readable := true }

/-- Outcome of a fallible external I/O or multiplexer call (`io::Result<()>`),
used as an oracle input. -/
inductive IoResult where
  | ok
  | err (e : Nat)
deriving DecidableEq

/-- `r.is_err()` for an externalised `io::Result<()>`. -/
def IoResult.isErr : IoResult → Bool
  | IoResult.ok => false
  | IoResult.err _ => true

/-- `Connection` from src/connection.rs: token, interest set and the outbound
`send_queue : Vec<Vec<u8>>`.  The owned `TcpStream` is an external handle and
is modelled by the oracle inputs fed to `readable`/`writable`. -/
structure Connection where
  token : Nat
  interest : EventSet
  send_queue : List (List Nat)
deriving DecidableEq

/-- `Connection::new`: default interest `EventSet::hup()`, empty queue. -/
def Connection.new (token : Nat) : Connection :=
  { token := token, interest := EventSet.hupOnly, send_queue := [] }

/-- `Connection::send_message`: push the buffer on the tail of `send_queue`
and insert "writable" into the interest set.  The Rust method always returns
`Ok(())`, so only the new state is returned. -/
def Connection.send_message (c : Connection) (message : List Nat) : Connection :=
  { c with send_queue := c.send_queue ++ [message],
           interest := c.interest.insertWritable }

/-- `Connection::register`: inserts "readable" into the interest set (the
actual event-loop registration is external and its result is an oracle). -/
def Connection.register (c : Connection) : Connection :=
  { c with interest := c.interest.insertReadable }

/-- Result of one `self.socket.read(&mut tmp_buffer)` call: either `Ok(len)`
with the bytes read (at most 1024 of them fit the scratch chunk), or an I/O
error. -/
inductive ReadResult where
  | ok (chunk : List Nat)
  | ioErr (e : Nat)
deriving DecidableEq

/-- Result of the drain loop in `Connection::readable`: the accumulated
bytes, a propagated read error, or `starved` when the oracle list of read
results ran out before the loop ended (a model artefact: the real socket
always answers). -/
inductive DrainResult where
  | drained (buffer_list : List Nat)
  | failed (e : Nat)
  | starved
deriving DecidableEq

/-- The drain loop of `Connection::readable` (src/connection.rs lines 46-67):
read into the 1024-byte scratch chunk, append the bytes to `buffer_list`,
stop once a read returns fewer than 1024 bytes, loop again on a full chunk,
and return any read error as-is. -/
def drainReads : List ReadResult → List Nat → DrainResult
  | [], _ => DrainResult.starved
  | ReadResult.ok chunk :: rest, acc =>
      if chunk.length < 1024 then DrainResult.drained (acc ++ chunk)
      else drainReads rest (acc ++ chunk)
  | ReadResult.ioErr e :: _, _ => DrainResult.failed e

/-- Is `b` a UTF-8 continuation byte (`0x80..=0xBF`)? -/
def contByte (b : Nat) : Bool := 0x80 ≤ b && b ≤ 0xBF

/-- UTF-8 validity of a byte list, as checked by Rust's
`String::from_utf8`: ASCII, two-byte forms `C2..DF`, three-byte forms with
the `E0`/`ED` special ranges excluding overlongs and surrogates, four-byte
forms with the `F0`/`F4` special ranges capping at U+10FFFF. -/
def isValidUtf8 : List Nat → Bool
  | [] => true
  | b0 :: rest =>
    if b0 ≤ 0x7F then isValidUtf8 rest
    else if 0xC2 ≤ b0 && b0 ≤ 0xDF then
      match rest with
      | b1 :: rest1 => contByte b1 && isValidUtf8 rest1
      | [] => false
    else if b0 = 0xE0 then
      match rest with
      | b1 :: b2 :: rest2 =>
          (0xA0 ≤ b1 && b1 ≤ 0xBF) && contByte b2 && isValidUtf8 rest2
      | _ => false
    else if (0xE1 ≤ b0 && b0 ≤ 0xEC) || b0 = 0xEE || b0 = 0xEF then
      match rest with
      | b1 :: b2 :: rest2 => contByte b1 && contByte b2 && isValidUtf8 rest2
      | _ => false
    else if b0 = 0xED then
      match rest with
      | b1 :: b2 :: rest2 =>
          (0x80 ≤ b1 && b1 ≤ 0x9F) && contByte b2 && isValidUtf8 rest2
      | _ => false
    else if b0 = 0xF0 then
      match rest with
      | b1 :: b2 :: b3 :: rest3 =>
          (0x90 ≤ b1 && b1 ≤ 0xBF) && contByte b2 && contByte b3 &&
            isValidUtf8 rest3
      | _ => false
    else if 0xF1 ≤ b0 && b0 ≤ 0xF3 then
      match rest with
      | b1 :: b2 :: b3 :: rest3 =>
          contByte b1 && contByte b2 && contByte b3 && isValidUtf8 rest3
      | _ => false
    else if b0 = 0xF4 then
      match rest with
      | b1 :: b2 :: b3 :: rest3 =>
          (0x80 ≤ b1 && b1 ≤ 0x8F) && contByte b2 && contByte b3 &&
            isValidUtf8 rest3
      | _ => false
    else false

/-- Outcome of `Connection::readable`: success with the mutated connection,
a propagated I/O error, the panic raised by
`String::from_utf8(..).ok().expect(..)` on non-UTF-8 input, or the model
artefact of an exhausted read oracle. -/
inductive ReadableResult where
  | ok (c : Connection)
  | ioErr (e : Nat)
  | utf8Panic
  | starved
deriving DecidableEq

/-- `Connection::readable` (src/connection.rs lines 34-79): drain the socket,
then convert the accumulated buffer to a UTF-8 string for the debug print —
panicking if it is not valid UTF-8 — and finally queue the buffer for echo
via `send_message`. -/
def Connection.readable (c : Connection) (reads : List ReadResult) : ReadableResult :=
  match drainReads reads [] with
  | DrainResult.starved => ReadableResult.starved
  | DrainResult.failed e => ReadableResult.ioErr e
  | DrainResult.drained buffer_list =>
      if isValidUtf8 buffer_list then ReadableResult.ok (c.send_message buffer_list)
      else ReadableResult.utf8Panic

/-- Outcome of `Connection::writable`: the mutated connection, the buffer
handed to the socket write (`none` when no I/O was performed), and the
propagated result. -/
structure WritableOut where
  conn : Connection
  written : Option (List Nat)
  result : IoResult
deriving DecidableEq

/-- `Connection::writable` (src/connection.rs lines 83-114): `pop` the last
element of `send_queue` (returning `Ok` untouched when the queue is empty),
`write_all` it (the write outcome is the oracle `w`; an error is returned
with the buffer already removed), and on success remove "writable" from the
interest set when the queue has become empty. -/
def Connection.writable (c : Connection) (w : IoResult) : WritableOut :=
  match c.send_queue.getLast? with
  | Option.none => ⟨c, Option.none, IoResult.ok⟩
  | some buffer =>
      let c1 : Connection := { c with send_queue := c.send_queue.dropLast }
      match w with
      | IoResult.err e => ⟨c1, some buffer, IoResult.err e⟩
      | IoResult.ok =>
          if c1.send_queue.isEmpty then
            ⟨{ c1 with interest := c1.interest.removeWritable }, some buffer, IoResult.ok⟩
          else ⟨c1, some buffer, IoResult.ok⟩

/-- Fuel-driven splitting of a byte burst into the successive chunks the
1024-byte scratch reads return: full 1024-byte chunks followed by a final
short chunk.  Fuel at least the burst length makes the fuel irrelevant. -/
def burstChunksAux : Nat → List Nat → List (List Nat)
  | 0, B => [B]
  | fuel + 1, B =>
      if B.length < 1024 then [B]
      else B.take 1024 :: burstChunksAux fuel (B.drop 1024)

/-- The chunks a single burst of bytes `B` is delivered in. -/
def burstChunks (B : List Nat) : List (List Nat) := burstChunksAux B.length B

/-- The read-oracle for a socket whose single readable burst carries exactly
the bytes `B`: each read returns the next chunk. -/
def burstReads (B : List Nat) : List ReadResult := (burstChunks B).map ReadResult.ok

/-- Modelled from the spec: the Connection Table is mio's `mio::util::Slab`,
an external dependency whose source is not part of this repository.  Per the
spec it is a "fixed-capacity, slot-indexed collection mapping a stable
integer token to a Connection, supporting O(1) insert-with-assigned-token,
O(1) lookup/remove by token, and rejecting insertion when full"; tokens
start at `offset` (the first token after the reserved ones) and removed
slots are reused by later insertions. -/
structure Slab where
  offset : Nat
  capacity : Nat
  slots : List (Option Connection)
deriving DecidableEq

/-- `Slab::new_starting_at(Token(offset), ..)`: an empty table. -/
def Slab.new_starting_at (offset capacity : Nat) : Slab :=
  { offset := offset, capacity := capacity, slots := [] }

/-- The number of live Connections in the table. -/
def Slab.count (s : Slab) : Nat := (s.slots.filter Option.isSome).length

/-- Lookup by token (`slab[token]` as an `Option`). -/
def Slab.get (s : Slab) (token : Nat) : Option Connection :=
  if token < s.offset then Option.none
  else
    match s.slots[token - s.offset]? with
    | some (some c) => some c
    | _ => Option.none

/-- `slab.insert_with(|token| ..)`: place the new entry in the first vacant
slot, or grow the slot list while below capacity; `none` when the table is
full.  Returns the assigned token and the new table. -/
def Slab.insert_with (s : Slab) (f : Nat → Connection) : Option (Nat × Slab) :=
  match s.slots.findIdx? Option.isNone with
  | some i => some (s.offset + i, { s with slots := s.slots.set i (some (f (s.offset + i))) })
  | Option.none =>
      if s.slots.length < s.capacity then
        some (s.offset + s.slots.length, { s with slots := s.slots ++ [some (f (s.offset + s.slots.length))] })
      else Option.none

/-- `slab.remove(token)`: vacate the slot named by the token. -/
def Slab.remove (s : Slab) (token : Nat) : Slab :=
  if token < s.offset then s
  else { s with slots := s.slots.set (token - s.offset) Option.none }

/-- In-place mutation of the Connection a token names (Rust's
`&mut self.connections[token]`); no-op on a vacant token. -/
def Slab.modify (s : Slab) (token : Nat) (f : Connection → Connection) : Slab :=
  if token < s.offset then s
  else
    match s.slots[token - s.offset]? with
    | some (some c) => { s with slots := s.slots.set (token - s.offset) (some (f c)) }
    | _ => s

/-- `Server` from src/server.rs: the reserved listening token and the
Connection Table (the owned `TcpListener` is external). -/
structure Server where
  token : Nat
  connections : Slab
deriving DecidableEq

/-- Modelled from the spec: the table capacity implied by
`Slab::new_starting_at(Token(2), 16384)` — per the spec, "capacity = N
(e.g. 16384) minus the handful of tokens reserved before the table's token
range starts", here tokens 0 (unused) and 1 (the Server), so 16382. -/
def slabCapacity : Nat := 16384 - 2

/-- `Server::new`: reserved token 1, connection tokens starting at 2. -/
def Server.new : Server :=
  { token := 1, connections := Slab.new_starting_at 2 slabCapacity }

/-- Outcome of one `socket.accept()` call on the listener: a new socket
(`Ok(Some(..))`), nothing pending (`Ok(None)`), or an error (`Err(..)`). -/
inductive AcceptInput where
  | newSocket
  | nothingPending
  | acceptErr (e : Nat)
deriving DecidableEq

/-- Observable outcome of `Server::accept`: the new server state, whether
the listening socket was re-registered, whether re-registration failure shut
the loop down, whether the capacity diagnostic was printed, and the token of
the connection that remained inserted (if any). -/
structure AcceptOut where
  server : Server
  serverReregistered : Bool
  shutdown : Bool
  capacityDiagnostic : Bool
  newToken : Option Nat
deriving DecidableEq

/-- `Server::reregister` (src/server.rs lines 105-115): re-register the
listener; on failure shut the event loop down.  Returns the shutdown flag. -/
def Server.reregisterShutdown (r : IoResult) : Bool := r.isErr

/-- `Server::accept` (src/server.rs lines 120-179).  `regResult` is the
multiplexer's answer to registering the new connection, `serverRereg` its
answer to re-registering the listener.  On `Ok(None)` or `Err(..)` from
`accept()` the listener is re-registered and nothing else happens; on a new
socket the connection is inserted with a fresh token and registered, a
failed registration removes it again, and a full table drops the accept
with the capacity diagnostic; in every branch the listener re-registration
is performed. -/
def Server.accept (s : Server) (inp : AcceptInput) (regResult : IoResult)
    (serverRereg : IoResult) : AcceptOut :=
  match inp with
  | AcceptInput.nothingPending =>
      ⟨s, true, Server.reregisterShutdown serverRereg, false, Option.none⟩
  | AcceptInput.acceptErr _ =>
      ⟨s, true, Server.reregisterShutdown serverRereg, false, Option.none⟩
  | AcceptInput.newSocket =>
      match s.connections.insert_with Connection.new with
      | some (t, slab1) =>
          match regResult with
          | IoResult.ok =>
              ⟨{ s with connections := slab1.modify t Connection.register },
               true, Server.reregisterShutdown serverRereg, false, some t⟩
          | IoResult.err _ =>
              ⟨{ s with connections := slab1.remove t },
               true, Server.reregisterShutdown serverRereg, false, Option.none⟩
      | Option.none =>
          ⟨s, true, Server.reregisterShutdown serverRereg, true, Option.none⟩

/-- Modelled from the spec: `Connection::close` is called by
`Server::close_connection` but its definition is absent from the sources;
per the spec it deregisters the connection's socket from the Multiplexer,
so its result is exactly the Multiplexer's deregistration answer. -/
def Connection.close (deregResult : IoResult) : IoResult := deregResult

/-- Observable outcome of `Server::close_connection`: the new server state,
whether the event loop was shut down, whether a deregistration failure was
logged, and whether the slab lookup panicked (vacant token). -/
structure CloseOut where
  server : Server
  shutdown : Bool
  loggedDeregFailure : Bool
  panicked : Bool
deriving DecidableEq

/-- `Server::close_connection` (src/server.rs lines 185-199): the Server's
own token shuts the event loop down; any other token has its Connection
closed (deregistered, the failure only logged) and removed from the table
regardless of the deregistration result.  A vacant token panics in
`find_connection_by_token`. -/
def Server.close_connection (s : Server) (token : Nat) (deregResult : IoResult) : CloseOut :=
  if s.token = token then ⟨s, true, false, false⟩
  else
    match s.connections.get token with
    | Option.none => ⟨s, false, false, true⟩
    | some _ =>
        ⟨{ s with connections := s.connections.remove token }, false,
         (Connection.close deregResult).isErr, false⟩

/-- The reasons `Server::ready` can panic: the
`assert!(self.token != token, ..)` on a writable event, indexing the slab at
a vacant token in `find_connection_by_token`, and the UTF-8 `expect` inside
`Connection::readable`. -/
inductive PanicKind where
  | assertServerWritable
  | slabIndex
  | utf8
deriving DecidableEq

/-- Oracle inputs consumed by one `Server::ready` dispatch: socket read
results and write result, the multiplexer's answers to the connection
re-registrations and deregistrations, and the inputs of a possible
`accept`. -/
structure ReadyOracle where
  reads : List ReadResult
  write : IoResult
  reregW : IoResult
  reregR : IoResult
  deregW : IoResult
  deregR : IoResult
  deregHup : IoResult
  acceptInp : AcceptInput
  acceptReg : IoResult
  acceptRereg : IoResult
deriving DecidableEq

/-- Observable outcome of `Server::ready`: the new server state, whether the
event loop was shut down, which panic aborted the dispatch (if any), and
whether the read oracle ran dry (model artefact). -/
structure ReadyOut where
  server : Server
  shutdown : Bool
  panicked : Option PanicKind
  incomplete : Bool
deriving DecidableEq

/-- The writable block of `Server::ready` (src/server.rs lines 33-50):
assert the token is not the Server's, look the Connection up, run
`writable()`, re-register on success, and close the connection when either
step fails. -/
def Server.readyWritable (s : Server) (token : Nat) (o : ReadyOracle) : ReadyOut :=
  if s.token = token then ⟨s, false, some PanicKind.assertServerWritable, false⟩
  else
    match s.connections.get token with
    | Option.none => ⟨s, false, some PanicKind.slabIndex, false⟩
    | some c =>
        let wout := c.writable o.write
        let s1 : Server := { s with connections := s.connections.modify token (fun _ => wout.conn) }
        match wout.result, o.reregW with
        | IoResult.ok, IoResult.ok => ⟨s1, false, Option.none, false⟩
        | _, _ =>
            let co := s1.close_connection token o.deregW
            ⟨co.server, co.shutdown,
             if co.panicked then some PanicKind.slabIndex else Option.none, false⟩

/-- The readable block of `Server::ready` (src/server.rs lines 53-73): the
Server's own token accepts; any other token has its Connection looked up,
`readable()` run (whose UTF-8 `expect` may panic), re-registered on success,
and closed when the read or the re-registration fails. -/
def Server.readyReadable (s : Server) (token : Nat) (shut : Bool) (o : ReadyOracle) : ReadyOut :=
  if s.token = token then
    let ao := s.accept o.acceptInp o.acceptReg o.acceptRereg
    ⟨ao.server, shut || ao.shutdown, Option.none, false⟩
  else
    match s.connections.get token with
    | Option.none => ⟨s, shut, some PanicKind.slabIndex, false⟩
    | some c =>
        match c.readable o.reads with
        | ReadableResult.starved => ⟨s, shut, Option.none, true⟩
        | ReadableResult.utf8Panic => ⟨s, shut, some PanicKind.utf8, false⟩
        | ReadableResult.ioErr _ =>
            let co := s.close_connection token o.deregR
            ⟨co.server, shut || co.shutdown,
             if co.panicked then some PanicKind.slabIndex else Option.none, false⟩
        | ReadableResult.ok c1 =>
            let s1 : Server := { s with connections := s.connections.modify token (fun _ => c1) }
            match o.reregR with
            | IoResult.ok => ⟨s1, shut, Option.none, false⟩
            | IoResult.err _ =>
                let co := s1.close_connection token o.deregR
                ⟨co.server, shut || co.shutdown,
                 if co.panicked then some PanicKind.slabIndex else Option.none, false⟩

/-- `Server::ready` (src/server.rs lines 25-74): an error or hang-up event
closes the connection and stops processing the entry; otherwise the
writable block runs when "writable" is signaled (aborting everything on a
panic), and then the readable block runs when "readable" is signaled. -/
def Server.ready (s : Server) (token : Nat) (events : EventSet) (o : ReadyOracle) : ReadyOut :=
  if events.error || events.hup then
    let co := s.close_connection token o.deregHup
    ⟨co.server, co.shutdown,
     if co.panicked then some PanicKind.slabIndex else Option.none, false⟩
  else
    let afterW : ReadyOut :=
      if events.writable then Server.readyWritable s token o
      else ⟨s, false, Option.none, false⟩
    match afterW.panicked with
    | some _ => afterW
    | Option.none =>
        if events.readable then
          let ro := Server.readyReadable afterW.server token afterW.shutdown o
          { ro with incomplete := afterW.incomplete || ro.incomplete }
        else afterW

/-- One (token, events, oracle) entry delivered by a multiplexer poll
cycle. -/
structure ReadyCall where
  token : Nat
  events : EventSet
  oracle : ReadyOracle
deriving DecidableEq

/-- Run the event loop: dispatch a list of poll entries from a server
state. -/
def serverRun (s : Server) : List ReadyCall → Server
  | [] => s
  | rc :: rest => serverRun (s.ready rc.token rc.events rc.oracle).server rest

/-- The operations of claim C8's sequences on a single Connection.  The
`writableOp` argument is the socket's answer to the `write_all`. -/
inductive ConnOp where
  | send (msg : List Nat)
  | writableOp (w : IoResult)
  | registerOp
  | reregisterOp
deriving DecidableEq

/-- State transition of one Connection operation.  `reregister` leaves the
interest set untouched (it only re-arms the multiplexer); a failed
`writable` still has popped the queue. -/
def connStep (c : Connection) : ConnOp → Connection
  | ConnOp.send m => c.send_message m
  | ConnOp.writableOp w => (c.writable w).conn
  | ConnOp.registerOp => c.register
  | ConnOp.reregisterOp => c

/-- Run a sequence of Connection operations. -/
def connRun (c : Connection) (ops : List ConnOp) : Connection := ops.foldl connStep c

/-- The interest-set invariant of a registered Connection: "readable" stays
asserted, and the "writable" flag can only be clear while the outbound
queue is empty. -/
def interestInv (c : Connection) : Prop :=
  c.interest.readable = true ∧ (c.interest.writable = false → c.send_queue = [])

/-- Claim C2: `Connection::writable` removes the most recently enqueued
buffer (last-in-first-out), not the oldest; in particular with "AA" then
"BB" queued via `send_message`, the first `writable()` writes "BB" and the
next one writes "AA". -/
theorem c2_lifo_removal (c : Connection) (w : IoResult) :
    (Connection.writable c w).written = c.send_queue.getLast? ∧
    (Connection.writable (((Connection.new 7).send_message [65, 65]).send_message [66, 66])
        IoResult.ok).written = some [66, 66] ∧
    (Connection.writable
        (Connection.writable (((Connection.new 7).send_message [65, 65]).send_message [66, 66])
          IoResult.ok).conn IoResult.ok).written = some [65, 65] := by
  refine ⟨?_, by decide, by decide⟩
  unfold Connection.writable
  cases h : c.send_queue.getLast? with
  | none => rfl
  | some buffer =>
      cases w with
      | err e => rfl
      | ok => dsimp only; split <;> rfl

/-- Claim C3: the drain loop reads again exactly when the previous read
returned a full 1024-byte chunk, stops on a shorter read, and any read
error aborts immediately, propagated unchanged to the caller of
`Connection::readable`. -/
theorem c3_drain_loop_control (chunk : List Nat) (rest : List ReadResult)
    (acc : List Nat) (e : Nat) (c : Connection) :
    (chunk.length < 1024 →
      drainReads (ReadResult.ok chunk :: rest) acc = DrainResult.drained (acc ++ chunk)) ∧
    (chunk.length = 1024 →
      drainReads (ReadResult.ok chunk :: rest) acc = drainReads rest (acc ++ chunk)) ∧
    drainReads (ReadResult.ioErr e :: rest) acc = DrainResult.failed e ∧
    (∀ reads : List ReadResult, drainReads reads [] = DrainResult.failed e →
      Connection.readable c reads = ReadableResult.ioErr e) := by
  have hstep : drainReads (ReadResult.ok chunk :: rest) acc =
      if chunk.length < 1024 then DrainResult.drained (acc ++ chunk)
      else drainReads rest (acc ++ chunk) := rfl
  refine ⟨fun h => by rw [hstep, if_pos h], fun h => by rw [hstep, if_neg (by omega)], rfl, ?_⟩
  intro reads h
  unfold Connection.readable
  rw [h]

theorem c3_drain_loop_control_witness :
    ([7] : List Nat).length < 1024 ∧ (List.replicate 1024 0).length = 1024 ∧
    drainReads [ReadResult.ok [7]] [] = DrainResult.drained ([] ++ [7]) ∧
    drainReads (ReadResult.ok (List.replicate 1024 0) :: [ReadResult.ioErr 3]) [] =
      drainReads [ReadResult.ioErr 3] ([] ++ List.replicate 1024 0) ∧
    Connection.readable (Connection.new 2) [ReadResult.ioErr 3] = ReadableResult.ioErr 3 :=
  ⟨by decide, List.length_replicate 1024 0,
   (c3_drain_loop_control [7] [] [] 3 (Connection.new 2)).1 (by decide),
   (c3_drain_loop_control (List.replicate 1024 0) [ReadResult.ioErr 3] [] 3
       (Connection.new 2)).2.1 (List.length_replicate 1024 0),
   (c3_drain_loop_control [] [] [] 3 (Connection.new 2)).2.2.2 [ReadResult.ioErr 3] rfl⟩

/-- Claim C10: after a successful drain, `Connection::readable` panics (in
the debug `String::from_utf8` conversion) exactly when the accumulated
bytes are not valid UTF-8, and only completes the echo path (queueing via
`send_message`) on UTF-8-decodable input. -/
theorem c10_utf8_panic_gate (c : Connection) (reads : List ReadResult) (buf : List Nat)
    (h : drainReads reads [] = DrainResult.drained buf) :
    (Connection.readable c reads = ReadableResult.utf8Panic ↔ isValidUtf8 buf = false) ∧
    (isValidUtf8 buf = true →
      Connection.readable c reads = ReadableResult.ok (c.send_message buf)) := by
  unfold Connection.readable
  rw [h]
  by_cases hv : isValidUtf8 buf <;> simp [hv]

theorem c10_utf8_panic_gate_witness :
    drainReads [ReadResult.ok [255]] [] = DrainResult.drained [255] ∧
    (Connection.readable (Connection.new 3) [ReadResult.ok [255]] = ReadableResult.utf8Panic ↔
      isValidUtf8 [255] = false) :=
  ⟨by decide, (c10_utf8_panic_gate (Connection.new 3) [ReadResult.ok [255]] [255] (by decide)).1⟩

/-- Claim C4: `writable()` on an empty queue returns `Ok` with no socket
I/O and no state change; on a non-empty queue it removes the last buffer
and writes all of it — on success "writable" is cleared from the interest
set exactly when the queue became empty by that removal, and a write error
is propagated with the buffer already removed and the interest set
untouched. -/
theorem c4_writable_queue_discipline (c : Connection) (w : IoResult) (e : Nat) :
    (c.send_queue = [] → Connection.writable c w = ⟨c, Option.none, IoResult.ok⟩) ∧
    (c.send_queue ≠ [] → w = IoResult.ok →
      ((Connection.writable c w).conn.send_queue = c.send_queue.dropLast ∧
       (Connection.writable c w).result = IoResult.ok ∧
       (Connection.writable c w).written = c.send_queue.getLast? ∧
       (Connection.writable c w).conn.interest.writable =
         (if c.send_queue.dropLast.isEmpty then false else c.interest.writable))) ∧
    (c.send_queue ≠ [] → w = IoResult.err e →
      ((Connection.writable c w).conn.send_queue = c.send_queue.dropLast ∧
       (Connection.writable c w).result = IoResult.err e ∧
       (Connection.writable c w).conn.interest = c.interest)) := by
  refine ⟨?_, ?_, ?_⟩
  · intro hq
    unfold Connection.writable
    rw [hq]
    rfl
  · intro hq hw
    subst hw
    have hsome : c.send_queue.getLast?.isSome := by
      rw [List.getLast?_isSome]; exact hq
    obtain ⟨b, hb⟩ := Option.isSome_iff_exists.mp hsome
    unfold Connection.writable
    rw [hb]
    dsimp only
    split <;> rename_i hemp
    · simp_all [EventSet.removeWritable]
    · simp_all
  · intro hq hw
    subst hw
    have hsome : c.send_queue.getLast?.isSome := by
      rw [List.getLast?_isSome]; exact hq
    obtain ⟨b, hb⟩ := Option.isSome_iff_exists.mp hsome
    unfold Connection.writable
    rw [hb]
    exact ⟨rfl, rfl, rfl⟩

theorem c4_writable_queue_discipline_witness :
    Connection.writable (Connection.new 9) IoResult.ok =
      ⟨Connection.new 9, Option.none, IoResult.ok⟩ ∧
    ((Connection.writable (⟨9, EventSet.hupOnly, [[1]]⟩ : Connection) IoResult.ok).conn.send_queue =
        ([[1]] : List (List Nat)).dropLast ∧
     (Connection.writable (⟨9, EventSet.hupOnly, [[1]]⟩ : Connection) IoResult.ok).result = IoResult.ok ∧
     (Connection.writable (⟨9, EventSet.hupOnly, [[1]]⟩ : Connection) IoResult.ok).written =
        ([[1]] : List (List Nat)).getLast? ∧
     (Connection.writable (⟨9, EventSet.hupOnly, [[1]]⟩ : Connection) IoResult.ok).conn.interest.writable =
        (if ([[1]] : List (List Nat)).dropLast.isEmpty then false else EventSet.hupOnly.writable)) ∧
    ((Connection.writable (⟨9, EventSet.hupOnly, [[1]]⟩ : Connection) (IoResult.err 5)).conn.send_queue =
        ([[1]] : List (List Nat)).dropLast ∧
     (Connection.writable (⟨9, EventSet.hupOnly, [[1]]⟩ : Connection) (IoResult.err 5)).result = IoResult.err 5 ∧
     (Connection.writable (⟨9, EventSet.hupOnly, [[1]]⟩ : Connection) (IoResult.err 5)).conn.interest = EventSet.hupOnly) :=
  ⟨(c4_writable_queue_discipline (Connection.new 9) IoResult.ok 0).1 rfl,
   (c4_writable_queue_discipline (⟨9, EventSet.hupOnly, [[1]]⟩ : Connection) IoResult.ok 0).2.1
     (by decide) rfl,
   (c4_writable_queue_discipline (⟨9, EventSet.hupOnly, [[1]]⟩ : Connection) (IoResult.err 5) 5).2.2
     (by decide) rfl⟩

/-- Draining a burst of `B` bytes delivered in 1024-byte chunks accumulates
exactly `B`, provided the burst length is not an exact multiple of the
chunk size (so the loop ends on the final short read). -/
theorem drainReads_burstChunksAux (fuel : Nat) :
    ∀ B acc : List Nat, B.length ≤ fuel → B.length % 1024 ≠ 0 →
      drainReads ((burstChunksAux fuel B).map ReadResult.ok) acc =
        DrainResult.drained (acc ++ B) := by
  induction fuel with
  | zero =>
      intro B acc hle hmod
      exact absurd (by omega : B.length % 1024 = 0) hmod
  | succ n ih =>
      intro B acc hle hmod
      by_cases hlt : B.length < 1024
      · show drainReads ((if B.length < 1024 then [B]
            else B.take 1024 :: burstChunksAux n (B.drop 1024)).map ReadResult.ok) acc = _
        rw [if_pos hlt]
        show (if B.length < 1024 then DrainResult.drained (acc ++ B)
            else drainReads [] (acc ++ B)) = _
        rw [if_pos hlt]
      · show drainReads ((if B.length < 1024 then [B]
            else B.take 1024 :: burstChunksAux n (B.drop 1024)).map ReadResult.ok) acc = _
        rw [if_neg hlt]
        have htake : (B.take 1024).length = 1024 := by
          rw [List.length_take]; omega
        show (if (B.take 1024).length < 1024 then _
            else drainReads ((burstChunksAux n (B.drop 1024)).map ReadResult.ok)
              (acc ++ B.take 1024)) = _
        rw [if_neg (by omega)]
        rw [ih (B.drop 1024) (acc ++ B.take 1024)
              (by rw [List.length_drop]; omega)
              (by rw [List.length_drop]; omega)]
        rw [List.append_assoc, List.take_append_drop]

/-- Claim C1 (counterexample): the one-byte burst `0xFF` (length 1, not a
multiple of 1024) makes `Connection::readable` panic in the debug UTF-8
conversion instead of returning `Ok`, so the claim as stated fails for
non-UTF-8 bursts. -/
theorem c1_counterexample :
    ([255] : List Nat).length % 1024 ≠ 0 ∧
    Connection.readable (Connection.new 5) (burstReads [255]) = ReadableResult.utf8Panic := by
  exact ⟨by decide, by decide⟩

/-- Claim C1 (amended): for every burst `B` whose length is not an exact
multiple of the 1024-byte chunk size **and whose bytes are valid UTF-8**,
`Connection::readable` returns `Ok` and hands exactly `B`, in order, to
`send_message`, appending it as the next queued outbound message. -/
theorem c1_echo_round_trip (c : Connection) (B : List Nat)
    (hlen : B.length % 1024 ≠ 0) (hutf : isValidUtf8 B = true) :
    Connection.readable c (burstReads B) = ReadableResult.ok (c.send_message B) ∧
    (c.send_message B).send_queue = c.send_queue ++ [B] := by
  refine ⟨?_, rfl⟩
  unfold Connection.readable burstReads burstChunks
  rw [drainReads_burstChunksAux B.length B [] le_rfl hlen]
  rw [List.nil_append]
  dsimp only
  rw [if_pos hutf]

theorem c1_echo_round_trip_witness :
    ([104, 105] : List Nat).length % 1024 ≠ 0 ∧ isValidUtf8 [104, 105] = true ∧
    Connection.readable (Connection.new 5) (burstReads [104, 105]) =
      ReadableResult.ok ((Connection.new 5).send_message [104, 105]) :=
  ⟨by decide, by decide,
   (c1_echo_round_trip (Connection.new 5) [104, 105] (by decide) (by decide)).1⟩

/-- One Connection operation preserves the interest-set invariant. -/
theorem interestInv_step (c : Connection) (op : ConnOp) (h : interestInv c) :
    interestInv (connStep c op) := by
  obtain ⟨hr, hw⟩ := h
  cases op with
  | send m =>
      exact ⟨hr, fun hf => Bool.noConfusion hf⟩
  | registerOp =>
      exact ⟨rfl, fun hf => hw hf⟩
  | reregisterOp =>
      exact ⟨hr, hw⟩
  | writableOp w =>
      show interestInv (c.writable w).conn
      unfold Connection.writable
      cases hq : c.send_queue.getLast? with
      | none => exact ⟨hr, hw⟩
      | some buffer =>
          have hne : c.interest.writable = true := by
            cases hwr : c.interest.writable
            · rw [hw hwr] at hq; simp at hq
            · rfl
          cases w with
          | err e =>
              refine ⟨hr, fun hf => ?_⟩
              rw [hne] at hf; simp at hf
          | ok =>
              dsimp only
              split <;> rename_i hemp
              · exact ⟨hr, fun _ => by simpa using hemp⟩
              · refine ⟨hr, fun hf => ?_⟩
                rw [hne] at hf; simp at hf

/-- A sequence of Connection operations preserves the interest-set
invariant. -/
theorem interestInv_run (ops : List ConnOp) :
    ∀ c : Connection, interestInv c → interestInv (connRun c ops) := by
  induction ops with
  | nil => exact fun c h => h
  | cons op rest ih =>
      intro c h
      exact ih (connStep c op) (interestInv_step c op h)

/-- The freshly registered Connection satisfies the invariant. -/
theorem interestInv_new_registered (t : Nat) : interestInv ((Connection.new t).register) :=
  ⟨rfl, fun _ => rfl⟩

/-- Claim C8: along every sequence of `send_message`, `writable`,
`register` and `reregister` operations from a registered Connection,
"readable" stays asserted, "writable" can only be clear while the queue is
empty, and at each point where the interest set is recomputed
(`send_message` always; a successful `writable` on a non-empty queue) the
"writable" flag ends up asserted if and only if the queue is then
non-empty. -/
theorem c8_interest_recompute (t : Nat) (ops : List ConnOp) (m : List Nat) :
    interestInv (connRun ((Connection.new t).register) ops) ∧
    ((connRun ((Connection.new t).register) ops).send_message m).interest.writable =
      !((connRun ((Connection.new t).register) ops).send_message m).send_queue.isEmpty ∧
    ((connRun ((Connection.new t).register) ops).send_queue ≠ [] →
      ((connRun ((Connection.new t).register) ops).writable IoResult.ok).conn.interest.writable =
        !((connRun ((Connection.new t).register) ops).writable IoResult.ok).conn.send_queue.isEmpty) := by
  have hinv := interestInv_run ops ((Connection.new t).register) (interestInv_new_registered t)
  refine ⟨hinv, ?_, ?_⟩
  · simp [Connection.send_message, EventSet.insertWritable]
  · intro hq
    set c := connRun ((Connection.new t).register) ops with hc
    have hne : c.interest.writable = true := by
      cases hwr : c.interest.writable
      · exact absurd (hinv.2 hwr) hq
      · rfl
    have hsome : c.send_queue.getLast?.isSome := by
      rw [List.getLast?_isSome]; exact hq
    obtain ⟨b, hb⟩ := Option.isSome_iff_exists.mp hsome
    unfold Connection.writable
    rw [hb]
    dsimp only
    split <;> rename_i hemp
    · simp [EventSet.removeWritable, hemp]
    · rw [hne]
      cases he2 : c.send_queue.dropLast.isEmpty
      · rfl
      · exact absurd he2 hemp

theorem c8_interest_recompute_witness :
    interestInv (connRun ((Connection.new 0).register) [ConnOp.send [1]]) ∧
    ((connRun ((Connection.new 0).register) [ConnOp.send [1]]).send_message [2]).interest.writable =
      !((connRun ((Connection.new 0).register) [ConnOp.send [1]]).send_message [2]).send_queue.isEmpty ∧
    ((connRun ((Connection.new 0).register) [ConnOp.send [1]]).writable IoResult.ok).conn.interest.writable =
      !((connRun ((Connection.new 0).register) [ConnOp.send [1]]).writable IoResult.ok).conn.send_queue.isEmpty :=
  ⟨(c8_interest_recompute 0 [ConnOp.send [1]] [2]).1,
   (c8_interest_recompute 0 [ConnOp.send [1]] [2]).2.1,
   (c8_interest_recompute 0 [ConnOp.send [1]] [2]).2.2 (by decide)⟩

/-- `modify` keeps the slot-list length. -/
theorem Slab.length_modify (s : Slab) (t : Nat) (f : Connection → Connection) :
    (s.modify t f).slots.length = s.slots.length := by
  unfold Slab.modify
  split
  · rfl
  · split
    · exact List.length_set ..
    · rfl

/-- `modify` keeps the capacity. -/
theorem Slab.capacity_modify (s : Slab) (t : Nat) (f : Connection → Connection) :
    (s.modify t f).capacity = s.capacity := by
  unfold Slab.modify
  split
  · rfl
  · split <;> rfl

/-- `remove` keeps the slot-list length. -/
theorem Slab.length_remove (s : Slab) (t : Nat) :
    (s.remove t).slots.length = s.slots.length := by
  unfold Slab.remove
  split
  · rfl
  · exact List.length_set ..

/-- `remove` keeps the capacity. -/
theorem Slab.capacity_remove (s : Slab) (t : Nat) :
    (s.remove t).capacity = s.capacity := by
  unfold Slab.remove
  split <;> rfl

/-- A successful insertion keeps the slot-list length within capacity and
the capacity itself unchanged. -/
theorem Slab.insert_with_wf {s : Slab} {f : Nat → Connection} {t : Nat} {s₁ : Slab}
    (h : s.insert_with f = some (t, s₁)) (hwf : s.slots.length ≤ s.capacity) :
    s₁.slots.length ≤ s₁.capacity ∧ s₁.capacity = s.capacity := by
  unfold Slab.insert_with at h
  cases hf : s.slots.findIdx? Option.isNone with
  | some i =>
      rw [hf] at h
      cases h
      constructor
      · simpa using hwf
      · rfl
  | none =>
      rw [hf] at h
      by_cases hlt : s.slots.length < s.capacity
      · rw [if_pos hlt] at h
        cases h
        constructor
        · simp only [List.length_append, List.length_cons, List.length_nil]
          omega
        · rfl
      · rw [if_neg hlt] at h
        exact absurd h (by simp)

/-- The server invariant: the Connection Table's slot list never exceeds
its capacity, and the capacity is the one fixed by `Server::new`. -/
def Server.inv (s : Server) : Prop :=
  s.connections.slots.length ≤ s.connections.capacity ∧
    s.connections.capacity = slabCapacity

/-- `accept` preserves the server invariant. -/
theorem Server.accept_inv (s : Server) (inp : AcceptInput) (reg ser : IoResult)
    (h : Server.inv s) : Server.inv (s.accept inp reg ser).server := by
  cases inp with
  | nothingPending => exact h
  | acceptErr e => exact h
  | newSocket =>
      unfold Server.accept
      cases hi : s.connections.insert_with Connection.new with
      | none => exact h
      | some ts =>
          obtain ⟨t, slab1⟩ := ts
          obtain ⟨h1, h2⟩ := Slab.insert_with_wf hi h.1
          cases reg with
          | ok =>
              refine ⟨?_, ?_⟩
              · rw [Slab.length_modify, Slab.capacity_modify]; exact h1
              · rw [Slab.capacity_modify, h2]; exact h.2
          | err e =>
              refine ⟨?_, ?_⟩
              · rw [Slab.length_remove, Slab.capacity_remove]; exact h1
              · rw [Slab.capacity_remove, h2]; exact h.2

/-- `close_connection` preserves the server invariant. -/
theorem Server.close_inv (s : Server) (token : Nat) (dereg : IoResult)
    (h : Server.inv s) : Server.inv (s.close_connection token dereg).server := by
  unfold Server.close_connection
  split
  · exact h
  · cases hg : s.connections.get token with
    | none => exact h
    | some c =>
        refine ⟨?_, ?_⟩
        · rw [Slab.length_remove, Slab.capacity_remove]; exact h.1
        · rw [Slab.capacity_remove]; exact h.2

/-- The writable block of `ready` preserves the server invariant. -/
theorem Server.readyWritable_inv (s : Server) (token : Nat) (o : ReadyOracle)
    (h : Server.inv s) : Server.inv (Server.readyWritable s token o).server := by
  unfold Server.readyWritable
  split
  · exact h
  · cases hg : s.connections.get token with
    | none => exact h
    | some c =>
        have h1 : Server.inv { s with
            connections := s.connections.modify token (fun _ => (c.writable o.write).conn) } := by
          refine ⟨?_, ?_⟩
          · rw [Slab.length_modify, Slab.capacity_modify]; exact h.1
          · rw [Slab.capacity_modify]; exact h.2
        dsimp only
        split
        · exact h1
        · exact Server.close_inv _ token o.deregW h1

/-- The readable block of `ready` preserves the server invariant. -/
theorem Server.readyReadable_inv (s : Server) (token : Nat) (shut : Bool) (o : ReadyOracle)
    (h : Server.inv s) : Server.inv (Server.readyReadable s token shut o).server := by
  unfold Server.readyReadable
  split
  · exact Server.accept_inv s o.acceptInp o.acceptReg o.acceptRereg h
  · cases hg : s.connections.get token with
    | none => exact h
    | some c =>
        dsimp only
        cases hr : c.readable o.reads with
        | starved => exact h
        | utf8Panic => exact h
        | ioErr e => exact Server.close_inv s token o.deregR h
        | ok c1 =>
            have h1 : Server.inv { s with
                connections := s.connections.modify token (fun _ => c1) } := by
              refine ⟨?_, ?_⟩
              · rw [Slab.length_modify, Slab.capacity_modify]; exact h.1
              · rw [Slab.capacity_modify]; exact h.2
            dsimp only
            cases o.reregR with
            | ok => exact h1
            | err e => exact Server.close_inv _ token o.deregR h1

/-- One `ready` dispatch preserves the server invariant. -/
theorem Server.ready_inv (s : Server) (token : Nat) (ev : EventSet) (o : ReadyOracle)
    (h : Server.inv s) : Server.inv (s.ready token ev o).server := by
  unfold Server.ready
  split
  · exact Server.close_inv s token o.deregHup h
  · dsimp only
    generalize hA : (if ev.writable = true then Server.readyWritable s token o
        else ⟨s, false, Option.none, false⟩) = afterW
    have hW : Server.inv afterW.server := by
      rw [← hA]
      split
      · exact Server.readyWritable_inv s token o h
      · exact h
    cases afterW.panicked with
    | some k => exact hW
    | none =>
        dsimp only
        by_cases hr : ev.readable = true
        · rw [if_pos hr]
          exact Server.readyReadable_inv afterW.server token afterW.shutdown o hW
        · rw [if_neg hr]
          exact hW

/-- Every state reached by running the event loop from `Server::new`
satisfies the invariant. -/
theorem serverRun_inv (calls : List ReadyCall) :
    ∀ s : Server, Server.inv s → Server.inv (serverRun s calls) := by
  induction calls with
  | nil => exact fun s h => h
  | cons rc rest ih =>
      intro s h
      exact ih _ (Server.ready_inv s rc.token rc.events rc.oracle h)

/-- A full table (as many live entries as its capacity) rejects
insertion. -/
theorem Slab.insert_with_full {s : Slab} (f : Nat → Connection)
    (hlen : s.slots.length ≤ s.capacity) (hfull : s.count = s.capacity) :
    s.insert_with f = Option.none := by
  have hle : s.count ≤ s.slots.length := List.length_filter_le _ _
  have hlen2 : s.slots.length = s.capacity := le_antisymm hlen (hfull ▸ hle)
  have hallfull : ∀ x ∈ s.slots, Option.isSome x = true := by
    have hfl : (s.slots.filter Option.isSome).length = s.slots.length := by
      unfold Slab.count at hfull; omega
    exact List.filter_length_eq_length.mp hfl
  have hidx : s.slots.findIdx? Option.isNone = Option.none := by
    rw [List.findIdx?_eq_none_iff]
    intro x hx
    have hs := hallfull x hx
    cases x
    · simp at hs
    · rfl
  unfold Slab.insert_with
  rw [hidx, if_neg (by omega)]

/-- Claim C5: every Server state reachable by running the event loop from
`Server::new` keeps at most `slabCapacity` (16384 minus the two reserved
tokens) live Connections, and an accept against a full table leaves the
server (hence every existing Connection) unchanged, creates no Connection,
and surfaces the capacity diagnostic. -/
theorem c5_capacity_bound (calls : List ReadyCall) (s : Server) (reg ser : IoResult)
    (hlen : s.connections.slots.length ≤ s.connections.capacity)
    (hfull : s.connections.count = s.connections.capacity) :
    (serverRun Server.new calls).connections.count ≤ slabCapacity ∧
    (s.accept AcceptInput.newSocket reg ser).server = s ∧
    (s.accept AcceptInput.newSocket reg ser).capacityDiagnostic = true ∧
    (s.accept AcceptInput.newSocket reg ser).newToken = Option.none := by
  constructor
  · have hinv := serverRun_inv calls Server.new ⟨Nat.zero_le _, rfl⟩
    calc (serverRun Server.new calls).connections.count
        ≤ (serverRun Server.new calls).connections.slots.length :=
          List.length_filter_le _ _
      _ ≤ (serverRun Server.new calls).connections.capacity := hinv.1
      _ = slabCapacity := hinv.2
  · have hins := Slab.insert_with_full Connection.new hlen hfull
    unfold Server.accept
    rw [hins]
    exact ⟨rfl, rfl, rfl⟩

theorem c5_capacity_bound_witness :
    (⟨2, 1, [some (Connection.new 2)]⟩ : Slab).slots.length ≤
      (⟨2, 1, [some (Connection.new 2)]⟩ : Slab).capacity ∧
    (⟨2, 1, [some (Connection.new 2)]⟩ : Slab).count =
      (⟨2, 1, [some (Connection.new 2)]⟩ : Slab).capacity ∧
    (serverRun Server.new []).connections.count ≤ slabCapacity ∧
    ((⟨1, ⟨2, 1, [some (Connection.new 2)]⟩⟩ : Server).accept AcceptInput.newSocket
        IoResult.ok IoResult.ok).server = ⟨1, ⟨2, 1, [some (Connection.new 2)]⟩⟩ ∧
    ((⟨1, ⟨2, 1, [some (Connection.new 2)]⟩⟩ : Server).accept AcceptInput.newSocket
        IoResult.ok IoResult.ok).capacityDiagnostic = true ∧
    ((⟨1, ⟨2, 1, [some (Connection.new 2)]⟩⟩ : Server).accept AcceptInput.newSocket
        IoResult.ok IoResult.ok).newToken = Option.none :=
  ⟨by decide, by decide,
   (c5_capacity_bound [] ⟨1, ⟨2, 1, [some (Connection.new 2)]⟩⟩ IoResult.ok IoResult.ok
      (by decide) (by decide)).1,
   (c5_capacity_bound [] ⟨1, ⟨2, 1, [some (Connection.new 2)]⟩⟩ IoResult.ok IoResult.ok
      (by decide) (by decide)).2.1,
   (c5_capacity_bound [] ⟨1, ⟨2, 1, [some (Connection.new 2)]⟩⟩ IoResult.ok IoResult.ok
      (by decide) (by decide)).2.2.1,
   (c5_capacity_bound [] ⟨1, ⟨2, 1, [some (Connection.new 2)]⟩⟩ IoResult.ok IoResult.ok
      (by decide) (by decide)).2.2.2⟩

/-- Removing the token a fresh insertion assigned restores the table to the
original, as observed through `get` at every token. -/
theorem Slab.get_remove_insert {s : Slab} {f : Nat → Connection} {t : Nat} {s₁ : Slab}
    (h : s.insert_with f = some (t, s₁)) (tok : Nat) :
    (s₁.remove t).get tok = s.get tok := by
  unfold Slab.insert_with at h
  cases hf : s.slots.findIdx? Option.isNone with
  | some i =>
      rw [hf] at h
      cases h
      obtain ⟨hi, hnone, -⟩ := List.findIdx?_eq_some_iff_getElem.mp hf
      have hinone : s.slots[i] = Option.none := Option.isNone_iff_eq_none.mp hnone
      unfold Slab.remove
      dsimp only
      rw [if_neg (by omega)]
      have hidx : s.offset + i - s.offset = i := by omega
      rw [hidx]
      unfold Slab.get
      by_cases htok : tok < s.offset
      · rw [if_pos htok, if_pos htok]
      · rw [if_neg htok, if_neg htok]
        dsimp only
        rw [List.set_set]
        by_cases hji : tok - s.offset = i
        · rw [hji]
          rw [List.getElem?_set_self hi]
          rw [List.getElem?_eq_getElem hi, hinone]
        · rw [List.getElem?_set_ne (fun hc => hji hc.symm)]
  | none =>
      rw [hf] at h
      by_cases hlt : s.slots.length < s.capacity
      · rw [if_pos hlt] at h
        cases h
        unfold Slab.remove
        dsimp only
        rw [if_neg (by omega)]
        have hidx : s.offset + s.slots.length - s.offset = s.slots.length := by omega
        rw [hidx]
        unfold Slab.get
        by_cases htok : tok < s.offset
        · rw [if_pos htok, if_pos htok]
        · rw [if_neg htok, if_neg htok]
          dsimp only
          rcases Nat.lt_trichotomy (tok - s.offset) s.slots.length with hj | hj | hj
          · rw [List.getElem?_set_ne (by omega)]
            rw [List.getElem?_append_left hj]
          · rw [hj]
            rw [List.getElem?_set_self (by simp)]
            rw [List.getElem?_eq_none le_rfl]
          · rw [List.getElem?_eq_none (by simp [List.length_set]; omega)]
            rw [List.getElem?_eq_none (by omega)]
      · rw [if_neg hlt] at h
        exact absurd h (by simp)

/-- Claim C6: every `Server::accept` outcome re-registers the listening
socket before returning, and when registering a freshly inserted
Connection fails, that Connection is removed again, so the table (observed
through `get`) is exactly what it was before the accept. -/
theorem c6_accept_rollback (s : Server) (inp : AcceptInput) (reg ser : IoResult) (e : Nat) :
    (s.accept inp reg ser).serverReregistered = true ∧
    (reg = IoResult.err e →
      ∀ tok, (s.accept AcceptInput.newSocket reg ser).server.connections.get tok =
        s.connections.get tok) := by
  constructor
  · cases inp with
    | nothingPending => rfl
    | acceptErr e2 => rfl
    | newSocket =>
        unfold Server.accept
        cases hi : s.connections.insert_with Connection.new with
        | none => rfl
        | some ts =>
            obtain ⟨t, slab1⟩ := ts
            cases reg <;> rfl
  · intro hreg tok
    subst hreg
    unfold Server.accept
    cases hi : s.connections.insert_with Connection.new with
    | none => rfl
    | some ts =>
        obtain ⟨t, slab1⟩ := ts
        exact Slab.get_remove_insert hi tok

theorem c6_accept_rollback_witness :
    (Server.new.accept AcceptInput.newSocket (IoResult.err 0) IoResult.ok).serverReregistered =
      true ∧
    (Server.new.accept AcceptInput.newSocket (IoResult.err 0) IoResult.ok).server.connections.get 2 =
      Server.new.connections.get 2 :=
  ⟨(c6_accept_rollback Server.new AcceptInput.newSocket (IoResult.err 0) IoResult.ok 0).1,
   (c6_accept_rollback Server.new AcceptInput.newSocket (IoResult.err 0) IoResult.ok 0).2 rfl 2⟩

/-- Claim C7: `close_connection` on the Server's own reserved token shuts
the event loop down; on any other (live) token it removes the Connection
from the table whether or not the Multiplexer deregistration succeeded, and
a deregistration failure is only logged — never retried, escalated or
turned into a shutdown. -/
theorem c7_close_connection (s : Server) (token : Nat) (dereg : IoResult)
    (hne : s.token ≠ token) (hlive : (s.connections.get token).isSome = true) :
    (Server.close_connection s s.token dereg).shutdown = true ∧
    (Server.close_connection s token dereg).server.connections.get token = Option.none ∧
    (Server.close_connection s token dereg).shutdown = false ∧
    (Server.close_connection s token dereg).panicked = false ∧
    (Server.close_connection s token dereg).loggedDeregFailure = dereg.isErr := by
  refine ⟨by unfold Server.close_connection; rw [if_pos rfl], ?_⟩
  obtain ⟨c, hc⟩ := Option.isSome_iff_exists.mp hlive
  unfold Server.close_connection
  rw [if_neg hne, hc]
  refine ⟨?_, rfl, rfl, rfl⟩
  have hofs : ¬ token < s.connections.offset := by
    intro hlt
    unfold Slab.get at hc
    rw [if_pos hlt] at hc
    exact Option.noConfusion hc
  have hidx : s.connections.slots[token - s.connections.offset]? = some (some c) := by
    unfold Slab.get at hc
    rw [if_neg hofs] at hc
    cases hg : s.connections.slots[token - s.connections.offset]? with
    | none => rw [hg] at hc; exact absurd hc (by simp)
    | some oc =>
        cases oc with
        | none => rw [hg] at hc; exact absurd hc (by simp)
        | some c2 =>
            rw [hg] at hc
            simp only [Option.some.injEq] at hc
            rw [hc]
  have hlt : token - s.connections.offset < s.connections.slots.length :=
    (List.getElem?_eq_some.mp hidx).1
  unfold Slab.remove Slab.get
  rw [if_neg hofs]
  dsimp only
  rw [if_neg hofs]
  rw [List.getElem?_set_self hlt]

theorem c7_close_connection_witness :
    (1 : Nat) ≠ 2 ∧
    ((⟨1, ⟨2, 5, [some (Connection.new 2)]⟩⟩ : Server).connections.get 2).isSome = true ∧
    (Server.close_connection (⟨1, ⟨2, 5, [some (Connection.new 2)]⟩⟩ : Server) 1
        (IoResult.err 3)).shutdown = true ∧
    (Server.close_connection (⟨1, ⟨2, 5, [some (Connection.new 2)]⟩⟩ : Server) 2
        (IoResult.err 3)).server.connections.get 2 = Option.none ∧
    (Server.close_connection (⟨1, ⟨2, 5, [some (Connection.new 2)]⟩⟩ : Server) 2
        (IoResult.err 3)).shutdown = false ∧
    (Server.close_connection (⟨1, ⟨2, 5, [some (Connection.new 2)]⟩⟩ : Server) 2
        (IoResult.err 3)).panicked = false ∧
    (Server.close_connection (⟨1, ⟨2, 5, [some (Connection.new 2)]⟩⟩ : Server) 2
        (IoResult.err 3)).loggedDeregFailure = (IoResult.err 3).isErr :=
  ⟨by decide, by decide,
   (c7_close_connection ⟨1, ⟨2, 5, [some (Connection.new 2)]⟩⟩ 2 (IoResult.err 3)
      (by decide) (by decide)).1,
   (c7_close_connection ⟨1, ⟨2, 5, [some (Connection.new 2)]⟩⟩ 2 (IoResult.err 3)
      (by decide) (by decide)).2.1,
   (c7_close_connection ⟨1, ⟨2, 5, [some (Connection.new 2)]⟩⟩ 2 (IoResult.err 3)
      (by decide) (by decide)).2.2.1,
   (c7_close_connection ⟨1, ⟨2, 5, [some (Connection.new 2)]⟩⟩ 2 (IoResult.err 3)
      (by decide) (by decide)).2.2.2.1,
   (c7_close_connection ⟨1, ⟨2, 5, [some (Connection.new 2)]⟩⟩ 2 (IoResult.err 3)
      (by decide) (by decide)).2.2.2.2⟩

/-- On a non-Server token the writable block can never raise the
listener-writable assertion panic. -/
theorem readyWritable_no_assert {s : Server} {token : Nat} {o : ReadyOracle}
    (h : s.token ≠ token) :
    (Server.readyWritable s token o).panicked ≠ some PanicKind.assertServerWritable := by
  unfold Server.readyWritable
  rw [if_neg h]
  cases hg : s.connections.get token with
  | none => simp
  | some c =>
      dsimp only
      split
      · simp
      · split <;> simp

/-- The readable block never raises the listener-writable assertion
panic. -/
theorem readyReadable_no_assert (s : Server) (token : Nat) (shut : Bool) (o : ReadyOracle) :
    (Server.readyReadable s token shut o).panicked ≠ some PanicKind.assertServerWritable := by
  unfold Server.readyReadable
  split
  · simp
  · cases hg : s.connections.get token with
    | none => simp
    | some c =>
        dsimp only
        cases hr : c.readable o.reads with
        | starved => simp
        | utf8Panic => simp
        | ioErr e =>
            dsimp only
            split <;> simp
        | ok c1 =>
            dsimp only
            cases o.reregR with
            | ok => simp
            | err e =>
                dsimp only
                split <;> simp

/-- Claim C9 (amended): if the Multiplexer never reports a writable event
for the Server's own token, the `assert!` in `ready` can never fire; and
`ready` does panic on a writable event carrying the Server's token
**provided neither error nor hang-up is signaled alongside** — an
error/hang-up flag short-circuits into `close_connection` before the
assertion is reached. -/
theorem c9_assert_reachability (s : Server) (token : Nat) (ev : EventSet) (o : ReadyOracle) :
    (¬(ev.writable = true ∧ token = s.token) →
      (s.ready token ev o).panicked ≠ some PanicKind.assertServerWritable) ∧
    (ev.writable = true → token = s.token → ev.error = false → ev.hup = false →
      (s.ready token ev o).panicked = some PanicKind.assertServerWritable) := by
  constructor
  · intro hpre
    unfold Server.ready
    split
    · dsimp only
      split <;> simp
    · dsimp only
      generalize hA : (if ev.writable = true then Server.readyWritable s token o
          else ⟨s, false, Option.none, false⟩) = afterW
      have hAP : afterW.panicked ≠ some PanicKind.assertServerWritable := by
        rw [← hA]
        by_cases hw : ev.writable = true
        · rw [if_pos hw]
          exact readyWritable_no_assert (fun he => hpre ⟨hw, he.symm⟩)
        · rw [if_neg hw]; simp
      cases hp : afterW.panicked with
      | some k => exact hAP
      | none =>
          dsimp only
          by_cases hr : ev.readable = true
          · rw [if_pos hr]
            exact readyReadable_no_assert afterW.server token afterW.shutdown o
          · rw [if_neg hr]
            rw [hp]
            simp
  · intro hw ht he hh
    unfold Server.ready
    rw [if_neg (by simp [he, hh])]
    dsimp only
    rw [if_pos hw]
    unfold Server.readyWritable
    rw [if_pos ht.symm]

/-- Claim C9 (counterexample): a writable event delivered together with a
hang-up flag for the Server's own token does **not** panic — the
error/hang-up branch shuts the loop down first — refuting "for any event
set where writable is signaled together with the Server's own token, ready
panics". -/
theorem c9_counterexample :
    EventSet.writable ⟨false, true, true, false⟩ = true ∧
    Server.new.token = 1 ∧
    (Server.ready Server.new 1 ⟨false, true, true, false⟩
        ⟨[], IoResult.ok, IoResult.ok, IoResult.ok, IoResult.ok, IoResult.ok, IoResult.ok,
         AcceptInput.nothingPending, IoResult.ok, IoResult.ok⟩).panicked = Option.none := by
  exact ⟨rfl, rfl, rfl⟩

theorem c9_assert_reachability_witness :
    (Server.ready Server.new 5 ⟨false, true, false, false⟩
        ⟨[], IoResult.ok, IoResult.ok, IoResult.ok, IoResult.ok, IoResult.ok, IoResult.ok,
         AcceptInput.nothingPending, IoResult.ok, IoResult.ok⟩).panicked ≠
      some PanicKind.assertServerWritable ∧
    (Server.ready Server.new 1 ⟨false, true, false, false⟩
        ⟨[], IoResult.ok, IoResult.ok, IoResult.ok, IoResult.ok, IoResult.ok, IoResult.ok,
         AcceptInput.nothingPending, IoResult.ok, IoResult.ok⟩).panicked =
      some PanicKind.assertServerWritable :=
  ⟨(c9_assert_reachability Server.new 5 ⟨false, true, false, false⟩
      ⟨[], IoResult.ok, IoResult.ok, IoResult.ok, IoResult.ok, IoResult.ok, IoResult.ok,
       AcceptInput.nothingPending, IoResult.ok, IoResult.ok⟩).1 (by decide),
   (c9_assert_reachability Server.new 1 ⟨false, true, false, false⟩
      ⟨[], IoResult.ok, IoResult.ok, IoResult.ok, IoResult.ok, IoResult.ok, IoResult.ok,
       AcceptInput.nothingPending, IoResult.ok, IoResult.ok⟩).2 rfl rfl rfl rfl⟩
